import Mathlib

/-!
Verification of `clean_images.py`, a command-line tool that reports and
removes metadata from image files.  The Python source is shallowly embedded:
byte strings become `List Nat` (each element a byte value), Python slices
`data[i:j]` become `(data.drop i).take (j - i)` (which, like Python slices,
clamp at the end of the buffer), `int.from_bytes(_, "big")` becomes a
big-endian fold, and the Pillow image objects become an explicit record of
the fields the script inspects (mode, size, transparency marker, attached
metadata side tables).
-/

namespace CleanImages

/-- `int.from_bytes(bs, "big")`: big-endian interpretation of a byte list. -/
def fromBytesBE (bs : List Nat) : Nat :=
  bs.foldl (fun a b => a * 256 + b) 0

/-- `bytes.decode("latin-1")`: each byte becomes the character of its code point. -/
def decodeLatin1 (bs : List Nat) : String :=
  String.mk (bs.map Char.ofNat)

/-- Python slice `data[i:i+n]`. -/
def pySlice (data : List Nat) (i n : Nat) : List Nat :=
  (data.drop i).take n

/-- The loop of `analizar_png`, starting from cursor `i`:
`while i < len(data): length = int.from_bytes(data[i:i+4], "big");
ctype = data[i+4:i+8].decode("latin-1"); chunks.append((ctype, length));
i += 12 + length`. -/
def scanFrom (data : List Nat) (i : Nat) : List (String × Nat) :=
  if h : i < data.length then
    let length := fromBytesBE (pySlice data i 4)
    let ctype := decodeLatin1 (pySlice data (i + 4) 4)
    (ctype, length) :: scanFrom data (i + 12 + length)
  else
    []
termination_by data.length - i
decreasing_by omega

/-- `analizar_png`: skip the 8-byte PNG signature, then scan chunks. -/
def analizar_png (data : List Nat) : List (String × Nat) :=
  scanFrom data 8

/-- 4-byte big-endian encoding of a 32-bit value. -/
def toBytesBE4 (n : Nat) : List Nat :=
  [n / 16777216 % 256, n / 65536 % 256, n / 256 % 256, n % 256]

/-- One well-formed on-disk PNG chunk: a 4-byte type code, the payload,
and a 4-byte CRC field. -/
structure Chunk where
  ctype : List Nat
  payload : List Nat
  crc : List Nat

/-- On-disk layout of a chunk: 4-byte big-endian length, 4-byte type,
payload, 4-byte CRC. -/
def encodeChunk (c : Chunk) : List Nat :=
  toBytesBE4 c.payload.length ++ c.ctype ++ c.payload ++ c.crc

/-- A structurally valid chunk: the fixed-size fields have their fixed sizes
and the payload length fits the 32-bit length field. -/
def Chunk.WF (c : Chunk) : Prop :=
  c.ctype.length = 4 ∧ c.crc.length = 4 ∧ c.payload.length < 4294967296

/-- A well-formed chunk-structured container: an 8-byte signature followed by
a sequence of encoded chunks that exactly tiles the rest of the buffer. -/
def encodePNG (sig : List Nat) (cs : List Chunk) : List Nat :=
  sig ++ (cs.map encodeChunk).flatten

-- ------------------------
-- reporte_png (classification and savings estimate)
-- ------------------------

/-- The chunk types `reporte_png` keeps: `if ctype in ["IHDR", "IDAT", "IEND"]`. -/
def critical (ctype : String) : Bool :=
  ["IHDR", "IDAT", "IEND"].contains ctype

/-- One report line of `reporte_png`: chunk type, declared length, and whether
the chunk is conserved (`true`) or eliminated (`false`). -/
def reportLine (c : String × Nat) : String × Nat × Bool :=
  (c.1, c.2, critical c.1)

/-- One iteration of the loop of `reporte_png`: every chunk produces one
report line, and the running `eliminado` total adds the length of every
non-critical chunk. -/
def reporteStep (acc : List (String × Nat × Bool) × Nat) (c : String × Nat) :
    List (String × Nat × Bool) × Nat :=
  if critical c.1 then (acc.1 ++ [reportLine c], acc.2)
  else (acc.1 ++ [reportLine c], acc.2 + c.2)

/-- The report of `reporte_png` over a parsed chunk list: the report lines
in order and the final `eliminado` total. -/
def reportePng (chunks : List (String × Nat)) : List (String × Nat × Bool) × Nat :=
  chunks.foldl reporteStep ([], 0)

-- ------------------------
-- reporte_exif (tag inventory and savings estimate)
-- ------------------------

/-- A decoded EXIF structure as the script sees it: the iteration order of
`exif_data.items()` (tag id paired with its value) together with the bytes
`exif_data.tobytes()` would serialize to.  Both come from the external
codec; the script only consumes them. -/
structure ExifData where
  tags : List (Nat × String)
  serialized : List Nat

/-- The tag-name lookup of `reporte_exif`:
`ExifTags.TAGS.get(tag_id, f"Unknown-{tag_id}")`.  The registry itself is
external, passed in as a partial map. -/
def tagLabel (registry : Nat → Option String) (tagId : Nat) : String :=
  (registry tagId).getD ("Unknown-" ++ toString tagId)

/-- The body of `reporte_exif` on a decoded EXIF structure: one report line
per decoded tag, labelled through the registry with the `Unknown-<id>`
fallback, and the savings estimate `len(exif_data.tobytes())`. -/
def reporteExif (registry : Nat → Option String) (exif : ExifData) :
    List (String × String) × Nat :=
  (exif.tags.map (fun t => (tagLabel registry t.1, t.2)), exif.serialized.length)

-- ------------------------
-- Pillow image model and clean_image_metadata
-- ------------------------

/-- The Pillow color modes the script distinguishes. -/
inductive PILMode
  | P
  | RGB
  | RGBA
  | L
  | LA
  | CMYK
  | I
  deriving DecidableEq, Repr

/-- The slice of a Pillow image object the script reads or transfers:
color mode, dimensions, the `info["transparency"]` marker, the decoded
pixel samples, and the attached metadata side tables (EXIF, text chunks,
…) that a fresh image does not have. -/
structure PILImage where
  mode : PILMode
  width : Nat
  height : Nat
  transparency : Option Nat
  pixels : List Nat
  metadata : List (String × String)
  deriving DecidableEq, Repr

/-- `img.convert(mode)`: same image resolved to another color mode
(Pillow keeps the `info` dictionary on the converted copy). -/
def PILImage.convert (img : PILImage) (m : PILMode) : PILImage :=
  { img with mode := m }

/-- `img.copy()`: an identical copy, metadata side tables included. -/
def PILImage.copy (img : PILImage) : PILImage :=
  img

/-- `Image.new(mode, size)`: a brand-new image that has never carried any
metadata side table or transparency marker. -/
def imageNew (m : PILMode) (w h : Nat) : PILImage :=
  { mode := m, width := w, height := h, transparency := none,
    pixels := [], metadata := [] }

/-- `base.paste(src)`: transfer only pixel samples into `base`. -/
def PILImage.paste (base src : PILImage) : PILImage :=
  { base with pixels := src.pixels }

/-- The reconstruction step of `clean_image_metadata` (lines 122-132):
palette images are resolved to RGBA or RGB depending on the transparency
marker, every other mode is copied as is, and the result is pasted into a
brand-new image of the converted mode and size. -/
def reconstruct (img : PILImage) : PILImage :=
  let converted :=
    if img.mode = PILMode.P then
      if img.transparency.isSome then img.convert PILMode.RGBA
      else img.convert PILMode.RGB
    else img.copy
  (imageNew converted.mode converted.width converted.height).paste converted

/-- The arguments of the final `save` call: the image handed to the codec,
the explicit format, and the lossy-encoder options. -/
structure SaveCall where
  img : PILImage
  format : Option String
  quality : Option Nat
  optimize : Bool
  deriving DecidableEq, Repr

/-- Python's `str.lower()` applied code point by code point, as the script
uses it on file extensions. -/
def pyLower (s : String) : String :=
  String.mk (s.data.map Char.toLower)

/-- The finalization step of `clean_image_metadata` (lines 134-142): a
`.jpg`/`.jpeg` target collapses alpha and palette modes to RGB and encodes
as JPEG at quality 95 with `optimize=True`; any other target saves the
reconstructed image directly. -/
def saveStep (suffix : String) (cleanImg : PILImage) : SaveCall :=
  if pyLower suffix = ".jpg" ∨ pyLower suffix = ".jpeg" then
    let saveImg :=
      if cleanImg.mode = PILMode.RGBA ∨ cleanImg.mode = PILMode.LA ∨
          cleanImg.mode = PILMode.P then
        cleanImg.convert PILMode.RGB
      else cleanImg
    { img := saveImg, format := some "JPEG", quality := some 95, optimize := true }
  else
    { img := cleanImg, format := none, quality := none, optimize := false }

-- ------------------------
-- Output path policy and the frame property on the input file
-- ------------------------

/-- A `pathlib.Path` as the script uses it: the parent directory and the
final component.  `Path.__truediv__` and path equality operate on these
components. -/
structure PyPath where
  parent : String
  name : List Char
  deriving DecidableEq, Repr

/-- Index of the last dot in a name, following `str.rfind('.')`. -/
def lastDotIdx (cs : List Char) : Option Nat :=
  (List.range cs.length).foldl
    (fun acc i => if cs.getD i ' ' = '.' then some i else acc) none

/-- `PurePath.stem` and `PurePath.suffix`: split the name at the last dot,
provided that dot is neither the first nor the last character; otherwise the
suffix is empty. -/
def stemSuffix (name : List Char) : List Char × List Char :=
  match lastDotIdx name with
  | some i =>
      if 0 < i ∧ i < name.length - 1 then (name.take i, name.drop i)
      else (name, [])
  | none => (name, [])

/-- `f"{image_path.stem}_clean{image_path.suffix}"`. -/
def cleanName (name : List Char) : List Char :=
  (stemSuffix name).1 ++ "_clean".toList ++ (stemSuffix name).2

/-- The output path of `clean_image_metadata`: the `_clean` name under the
caller-supplied output directory, or under the source's parent by default. -/
def outputPath (src : PyPath) (outputDir : Option String) : PyPath :=
  { parent := outputDir.getD src.parent, name := cleanName src.name }

/-- A file system as a map from paths to byte contents. -/
def FileSystem : Type :=
  PyPath → Option (List Nat)

/-- Writing one file: only the written path changes. -/
def writeFile (fs : FileSystem) (p : PyPath) (contents : List Nat) : FileSystem :=
  fun q => if q = p then some contents else fs q

-- ------------------------
-- The main loop: per-file outcomes, continuation on error
-- ------------------------

/-- Terminal outcome of one input item, mirroring the per-file status lines
the script prints. -/
inductive Outcome
  | pathNotFound
  | cleaned (save : SaveCall)
  | failed (reason : String)
  deriving DecidableEq, Repr

/-- One input item as the main loop sees it: its path, whether the path
exists, and what the external codec does when the item is opened and
decoded (a decoded image, or the message of the raised exception). -/
structure InputItem where
  path : PyPath
  exists_ : Bool
  decoded : Except String PILImage

/-- `clean_image_metadata` on one file: the whole body is wrapped in
`try/except Exception`, so a decode or encode failure becomes a printed
error for that file and a normal return. -/
def cleanOne (item : InputItem) : Outcome :=
  match item.decoded with
  | Except.error e => Outcome.failed e
  | Except.ok img => Outcome.cleaned (saveStep (String.mk (stemSuffix item.path.name).2) (reconstruct img))

/-- One iteration of the loop in `main`: a missing path prints a warning and
`continue`s; otherwise the file is cleaned, with its own errors caught. -/
def processInput (item : InputItem) : Outcome :=
  if item.exists_ then cleanOne item else Outcome.pathNotFound

/-- The whole run of `main` over its `--input` list: one outcome per item,
each produced independently of every other item. -/
def mainRun (items : List InputItem) : List Outcome :=
  items.map processInput

-- ------------------------
-- Spec-modelled scanner (bound-checked variant, for comparison)
-- ------------------------

/-- Result of the bound-checked scan the specification describes: either a
complete chunk list, or a malformed-container stop that preserves the
records parsed before the truncation point. -/
inductive SpecScan
  | ok (chunks : List (String × Nat))
  | malformed (parsed : List (String × Nat))
  deriving DecidableEq, Repr

/-- Modelled from the spec: the ChunkScanner failure semantics of spec
sections 4.1 and 7, which the source's `analizar_png` does not implement.
Before each field read the remaining buffer is bound-checked; a segment
whose 8-byte header or whose declared payload+CRC extent would read past
the buffer end stops the scan with a malformed-container report carrying
the segments already parsed. -/
def specScanFrom (data : List Nat) (i : Nat) (acc : List (String × Nat)) : SpecScan :=
  if h : i < data.length then
    if i + 8 ≤ data.length then
      let length := fromBytesBE (pySlice data i 4)
      let ctype := decodeLatin1 (pySlice data (i + 4) 4)
      if i + 12 + length ≤ data.length then
        specScanFrom data (i + 12 + length) (acc ++ [(ctype, length)])
      else SpecScan.malformed acc
    else SpecScan.malformed acc
  else SpecScan.ok acc
termination_by data.length - i
decreasing_by omega

/-- Modelled from the spec: the whole bound-checked scan, signature skipped. -/
def analizarPngSpec (data : List Nat) : SpecScan :=
  specScanFrom data 8 []

-- ------------------------
-- Concrete data used in scenarios and witnesses
-- ------------------------

/-- The 8-byte PNG signature. -/
def pngSig : List Nat :=
  [137, 80, 78, 71, 13, 10, 26, 10]

/-- A minimal well-formed IHDR-typed chunk with a 3-byte payload. -/
def chunkW : Chunk :=
  { ctype := [73, 72, 68, 82], payload := [1, 2, 3], crc := [9, 9, 9, 9] }

/-- A corrupt container: the signature, one complete zero-payload
IHDR-typed chunk, then a final segment header declaring a 100-byte payload
with no payload bytes behind it (total size 28). -/
def dataTrunc : List Nat :=
  [137, 80, 78, 71, 13, 10, 26, 10,
   0, 0, 0, 0, 73, 72, 68, 82, 0, 0, 0, 0,
   0, 0, 0, 100, 116, 82, 85, 78]

/-- A buffer with a signature followed by only two stray bytes: too short
to hold even one full segment header. -/
def dataShort : List Nat :=
  pngSig ++ [0, 0]

/-- A decoded EXIF structure with 12 tags, none of them in the registry,
whose directory serializes to 312 bytes. -/
def exifSample : ExifData :=
  { tags := (List.range 12).map (fun i => (i + 1, "v")),
    serialized := List.replicate 312 0 }

/-- A palette-mode image carrying a transparency marker and an attached
metadata side table. -/
def palImg : PILImage :=
  { mode := PILMode.P, width := 2, height := 2, transparency := some 0,
    pixels := [1, 2, 3, 4], metadata := [("exif", "blob")] }

/-- An RGBA image with no attached metadata. -/
def rgbaImg : PILImage :=
  { mode := PILMode.RGBA, width := 1, height := 1, transparency := none,
    pixels := [0], metadata := [] }

/-- An input item whose path does not exist. -/
def missingItem : InputItem :=
  { path := { parent := "d", name := ['a'] }, exists_ := false,
    decoded := Except.error "missing" }

/-- An input item whose decode step raises. -/
def failingItem : InputItem :=
  { path := { parent := "d", name := ['b'] }, exists_ := true,
    decoded := Except.error "cannot identify image file" }

-- ------------------------
-- Lemmas about the chunk scanner
-- ------------------------

lemma scanFrom_unfold (data : List Nat) (i : Nat) (h : i < data.length) :
    scanFrom data i =
      (decodeLatin1 (pySlice data (i + 4) 4), fromBytesBE (pySlice data i 4)) ::
        scanFrom data (i + 12 + fromBytesBE (pySlice data i 4)) := by
  rw [scanFrom, dif_pos h]

lemma length_toBytesBE4 (n : Nat) : (toBytesBE4 n).length = 4 := rfl

lemma fromBytesBE_toBytesBE4 (n : Nat) (h : n < 4294967296) :
    fromBytesBE (toBytesBE4 n) = n := by
  simp only [fromBytesBE, toBytesBE4, List.foldl]
  omega

lemma length_encodeChunk (c : Chunk) (hc : c.WF) :
    (encodeChunk c).length = 12 + c.payload.length := by
  obtain ⟨h1, h2, _⟩ := hc
  simp [encodeChunk, toBytesBE4, h1, h2]
  omega

lemma scanFrom_stop (data : List Nat) (i : Nat) (h : data.length ≤ i) :
    scanFrom data i = [] := by
  rw [scanFrom]
  simp
  omega

/-- Unfolding the scan at the start of one encoded chunk. -/
lemma scanFrom_cons_encode (pre rest : List Nat) (c : Chunk) (hc : c.WF) :
    scanFrom (pre ++ (encodeChunk c ++ rest)) pre.length =
      (decodeLatin1 c.ctype, c.payload.length) ::
        scanFrom (pre ++ (encodeChunk c ++ rest))
          (pre.length + 12 + c.payload.length) := by
  obtain ⟨hct, hcrc, hlt⟩ := hc
  have hlen : pre.length < (pre ++ (encodeChunk c ++ rest)).length := by
    simp [encodeChunk]
    omega
  have h1 : pySlice (pre ++ (encodeChunk c ++ rest)) pre.length 4 =
      toBytesBE4 c.payload.length := by
    unfold pySlice
    rw [List.drop_left]
    have hassoc : encodeChunk c ++ rest =
        toBytesBE4 c.payload.length ++ (c.ctype ++ c.payload ++ c.crc ++ rest) := by
      simp [encodeChunk]
    rw [hassoc, List.take_left' (length_toBytesBE4 _)]
  have h2 : pySlice (pre ++ (encodeChunk c ++ rest)) (pre.length + 4) 4 = c.ctype := by
    unfold pySlice
    have hassoc : pre ++ (encodeChunk c ++ rest) =
        (pre ++ toBytesBE4 c.payload.length) ++ (c.ctype ++ (c.payload ++ c.crc ++ rest)) := by
      simp [encodeChunk]
    rw [hassoc, List.drop_left' (by simp [length_toBytesBE4]),
      List.take_left' hct]
  rw [scanFrom, dif_pos hlen]
  simp only [h1, h2, fromBytesBE_toBytesBE4 _ hlt]

/-- The scan of a signature followed by encoded chunks and arbitrary
trailing bytes: every encoded chunk yields its record, and the scan then
continues at the start of the trailing bytes. -/
lemma scanFrom_encodePNG (cs : List Chunk) (pre rest : List Nat)
    (h : ∀ c ∈ cs, c.WF) :
    scanFrom (pre ++ ((cs.map encodeChunk).flatten ++ rest)) pre.length =
      cs.map (fun c => (decodeLatin1 c.ctype, c.payload.length)) ++
        scanFrom (pre ++ ((cs.map encodeChunk).flatten ++ rest))
          (pre.length + ((cs.map encodeChunk).flatten).length) := by
  induction cs generalizing pre with
  | nil => simp
  | cons c cs ih =>
    have hc : c.WF := h c (by simp)
    have hcs : ∀ c' ∈ cs, c'.WF := fun c' hmem => h c' (by simp [hmem])
    have hdata : pre ++ (((c :: cs).map encodeChunk).flatten ++ rest) =
        pre ++ (encodeChunk c ++ ((cs.map encodeChunk).flatten ++ rest)) := by
      simp
    rw [hdata, scanFrom_cons_encode pre _ c hc]
    have hpos : pre.length + 12 + c.payload.length = (pre ++ encodeChunk c).length := by
      simp [length_encodeChunk c hc]
      omega
    have hdata2 : pre ++ (encodeChunk c ++ ((cs.map encodeChunk).flatten ++ rest)) =
        (pre ++ encodeChunk c) ++ ((cs.map encodeChunk).flatten ++ rest) := by
      simp
    rw [hpos, hdata2, ih (pre ++ encodeChunk c) hcs]
    simp [length_encodeChunk c hc]
    congr 1
    omega

lemma flatten_length_wf (cs : List Chunk) (h : ∀ c ∈ cs, c.WF) :
    ((cs.map encodeChunk).flatten).length =
      (cs.map (fun c => c.payload.length + 12)).sum := by
  induction cs with
  | nil => simp
  | cons c cs ih =>
    have hc : c.WF := h c (by simp)
    have hcs : ∀ c' ∈ cs, c'.WF := fun c' hmem => h c' (by simp [hmem])
    simp [length_encodeChunk c hc, ih hcs]
    omega

/-- Each parsed record stands for at least 12 consumed bytes, so the record
count is bounded by the buffer size. -/
lemma scanFrom_length_bound (data : List Nat) :
    ∀ k i, data.length - i ≤ k → i < data.length →
      12 * (scanFrom data i).length + i ≤ data.length + 11 := by
  intro k
  induction k with
  | zero => intro i hk hi; omega
  | succ k ih =>
    intro i hk hi
    rw [scanFrom_unfold data i hi]
    by_cases h2 : i + 12 + fromBytesBE (pySlice data i 4) < data.length
    · have := ih (i + 12 + fromBytesBE (pySlice data i 4)) (by omega) h2
      simp only [List.length_cons]
      omega
    · rw [scanFrom_stop data _ (by omega)]
      simp
      omega

-- ------------------------
-- Lemmas about reporte_png and the path policy
-- ------------------------

lemma foldl_reporteStep (l : List (String × Nat)) (acc : List (String × Nat × Bool) × Nat) :
    l.foldl reporteStep acc =
      (acc.1 ++ l.map reportLine,
       acc.2 + (l.map (fun c => if critical c.1 then 0 else c.2)).sum) := by
  induction l generalizing acc with
  | nil => simp
  | cons c l ih =>
    rw [List.foldl_cons, ih]
    by_cases h : critical c.1 <;> simp [reporteStep, h] <;> omega

lemma stemSuffix_append (n : List Char) :
    (stemSuffix n).1 ++ (stemSuffix n).2 = n := by
  unfold stemSuffix
  cases h : lastDotIdx n with
  | none => simp
  | some i =>
    by_cases hi : 0 < i ∧ i < n.length - 1 <;> simp [hi]

lemma length_cleanName (n : List Char) :
    (cleanName n).length = n.length + 6 := by
  have h := congrArg List.length (stemSuffix_append n)
  simp only [List.length_append] at h
  have h6 : ("_clean".toList).length = 6 := rfl
  simp [cleanName, List.length_append, h6]
  omega

-- ------------------------
-- Claim theorems
-- ------------------------

/-- C7: for every well-formed chunk-structured container — an 8-byte
signature followed by encoded chunks that exactly tile the buffer — the sum
of `declared_length + 12` over all segments parsed by `analizar_png`, plus
the fixed 8-byte signature length, equals the total byte size of the
container. -/
theorem analizar_png_coverage (sig : List Nat) (cs : List Chunk)
    (hsig : sig.length = 8) (hwf : ∀ c ∈ cs, c.WF) :
    ((analizar_png (encodePNG sig cs)).map (fun r => r.2 + 12)).sum + 8 =
      (encodePNG sig cs).length := by
  unfold analizar_png encodePNG
  have h0 : sig ++ (cs.map encodeChunk).flatten =
      sig ++ ((cs.map encodeChunk).flatten ++ []) := by simp
  rw [h0, ← hsig, scanFrom_encodePNG cs sig [] hwf, scanFrom_stop]
  · simp [List.map_map, Function.comp_def, flatten_length_wf cs hwf, hsig]
    omega
  · simp

/-- C7 witness: the coverage identity on a concrete one-chunk container. -/
theorem analizar_png_coverage_witness :
    ((analizar_png (encodePNG pngSig [chunkW])).map (fun r => r.2 + 12)).sum + 8 =
      (encodePNG pngSig [chunkW]).length :=
  analizar_png_coverage pngSig [chunkW] rfl
    (by
      intro c hc
      rw [List.mem_singleton] at hc
      subst hc
      exact ⟨rfl, rfl, by norm_num [chunkW]⟩)

/-- C9: the chunk scanner terminates on every finite buffer because each
iteration advances the cursor by at least 12 bytes; consequently the number
of parsed records is linearly bounded by the buffer size. -/
theorem analizar_png_terminates (data : List Nat) :
    12 * (analizar_png data).length ≤ data.length + 3 := by
  unfold analizar_png
  by_cases h : 8 < data.length
  · have := scanFrom_length_bound data data.length 8 (by omega) h
    omega
  · rw [scanFrom_stop data 8 (by omega)]
    simp

/-- C8: the chunk scanner is total on arbitrary byte strings: slices clamp
at the buffer end (never reading out of bounds), an empty length slice
decodes as 0, and any buffer longer than the signature yields a first
record decoded from whatever bytes remain — truncated inputs produce
records, not errors. -/
theorem analizar_png_totality :
    (∀ (data : List Nat) (i n : Nat), (pySlice data i n).length ≤ n ∧
      ∀ b ∈ pySlice data i n, b ∈ data) ∧
    fromBytesBE [] = 0 ∧
    (∀ data : List Nat, 8 < data.length →
      analizar_png data =
        (decodeLatin1 (pySlice data 12 4), fromBytesBE (pySlice data 8 4)) ::
          scanFrom data (20 + fromBytesBE (pySlice data 8 4))) := by
  refine ⟨?_, rfl, ?_⟩
  · intro data i n
    refine ⟨?_, ?_⟩
    · simp [pySlice]
    · intro b hb
      unfold pySlice at hb
      exact List.mem_of_mem_drop (List.mem_of_mem_take hb)
  · intro data h
    unfold analizar_png
    rw [scanFrom_unfold data 8 h]

/-- C8 witness: a 10-byte buffer (signature plus two stray bytes) still
yields a record built from the short slices. -/
theorem analizar_png_totality_witness :
    analizar_png dataShort =
      (decodeLatin1 (pySlice dataShort 12 4), fromBytesBE (pySlice dataShort 8 4)) ::
        scanFrom dataShort (20 + fromBytesBE (pySlice dataShort 8 4)) :=
  analizar_png_totality.2.2 dataShort (by decide)

/-- C1 counterexample: on the corrupt container `dataTrunc` (28 bytes,
final segment declaring a 100-byte payload), the source's `analizar_png`
emits a record for the over-long segment and returns normally, whereas the
bound-checked scan the claim describes stops with a malformed-container
report carrying only the previously parsed segment. -/
theorem analizar_png_emits_record_past_bound :
    analizar_png dataTrunc = [("IHDR", 0), ("tRUN", 100)] ∧
    dataTrunc.length = 28 ∧
    analizarPngSpec dataTrunc = SpecScan.malformed [("IHDR", 0)] := by
  refine ⟨?_, rfl, ?_⟩
  · simp [dataTrunc, analizar_png, scanFrom, pySlice, fromBytesBE, decodeLatin1]
  · simp [dataTrunc, analizarPngSpec, specScanFrom, pySlice, fromBytesBE, decodeLatin1]

/-- C1 (amended): the scanner checks no bound and reports no error: a final
segment whose declared length would read past the buffer end still yields a
`(type, length)` record decoded from the remaining (possibly short) slices,
the scan then halts, and all segments parsed before the truncation point
are preserved in order. -/
theorem analizar_png_truncated_behavior (sig junk : List Nat) (cs : List Chunk)
    (hsig : sig.length = 8) (hwf : ∀ c ∈ cs, c.WF) (hne : junk ≠ [])
    (hshort : junk.length ≤ 12 + fromBytesBE (junk.take 4)) :
    analizar_png (encodePNG sig cs ++ junk) =
      cs.map (fun c => (decodeLatin1 c.ctype, c.payload.length)) ++
        [(decodeLatin1 ((junk.drop 4).take 4), fromBytesBE (junk.take 4))] := by
  unfold analizar_png encodePNG
  rw [List.append_assoc, ← hsig, scanFrom_encodePNG cs sig junk hwf]
  have hjunk : 0 < junk.length := List.length_pos.mpr hne
  have hpre : (sig ++ ((cs.map encodeChunk).flatten ++ junk)) =
      (sig ++ (cs.map encodeChunk).flatten) ++ junk := by simp
  have hprelen : (sig ++ (cs.map encodeChunk).flatten).length =
      sig.length + ((cs.map encodeChunk).flatten).length := by simp
  have hlt : sig.length + ((cs.map encodeChunk).flatten).length <
      (sig ++ ((cs.map encodeChunk).flatten ++ junk)).length := by
    simp
    omega
  rw [scanFrom_unfold _ _ hlt]
  have hdrop : pySlice (sig ++ ((cs.map encodeChunk).flatten ++ junk))
      (sig.length + ((cs.map encodeChunk).flatten).length) 4 = junk.take 4 := by
    unfold pySlice
    rw [hpre, List.drop_left' hprelen]
  have hdrop4 : pySlice (sig ++ ((cs.map encodeChunk).flatten ++ junk))
      (sig.length + ((cs.map encodeChunk).flatten).length + 4) 4 =
      (junk.drop 4).take 4 := by
    unfold pySlice
    rw [hpre, ← List.drop_drop, List.drop_left' hprelen]
  rw [hdrop, hdrop4, scanFrom_stop]
  simp
  omega

/-- C1 witness: the amended behavior on a concrete container with no
complete chunk and four trailing bytes. -/
theorem analizar_png_truncated_behavior_witness :
    analizar_png (encodePNG pngSig [] ++ [0, 0, 0, 5]) =
      ([] : List Chunk).map (fun c => (decodeLatin1 c.ctype, c.payload.length)) ++
        [(decodeLatin1 (([0, 0, 0, 5].drop 4).take 4), fromBytesBE ([0, 0, 0, 5].take 4))] :=
  analizar_png_truncated_behavior pngSig [0, 0, 0, 5] [] rfl (by simp)
    (by decide) (by decide)

/-- C2: `reporte_png` conserves exactly the IHDR, IDAT and IEND types and
marks every other type eliminated; conserved chunks never add to the
`eliminado` total while every eliminated chunk adds its declared length;
each chunk's report line is a function of its `(type, length)` record
alone; and the five-chunk scenario reports 47 reclaimable bytes with
exactly `tEXt` and `tIME` eliminated. -/
theorem reporte_png_classification :
    (∀ t : String, critical t = true ↔ (t = "IHDR" ∨ t = "IDAT" ∨ t = "IEND")) ∧
    (∀ (chunks : List (String × Nat)) (c : String × Nat), critical c.1 = true →
      (reportePng (chunks ++ [c])).2 = (reportePng chunks).2) ∧
    (∀ (chunks : List (String × Nat)) (c : String × Nat), critical c.1 = false →
      (reportePng (chunks ++ [c])).2 = (reportePng chunks).2 + c.2) ∧
    (∀ chunks : List (String × Nat), (reportePng chunks).1 = chunks.map reportLine) ∧
    (reportePng [("IHDR", 13), ("tEXt", 40), ("IDAT", 5000), ("tIME", 7), ("IEND", 0)]).2 = 47 ∧
    ((reportePng [("IHDR", 13), ("tEXt", 40), ("IDAT", 5000), ("tIME", 7), ("IEND", 0)]).1.filter
        (fun ln => !ln.2.2)).map (fun ln => ln.1) = ["tEXt", "tIME"] := by
  refine ⟨?_, ?_, ?_, ?_, by decide, by decide⟩
  · intro t
    simp [critical]
  · intro chunks c h
    unfold reportePng
    rw [foldl_reporteStep, foldl_reporteStep]
    simp [h]
  · intro chunks c h
    unfold reportePng
    rw [foldl_reporteStep, foldl_reporteStep]
    simp [h]
  · intro chunks
    unfold reportePng
    rw [foldl_reporteStep]
    simp

/-- C2 witness: appending a critical chunk leaves the `eliminado` total of a
concrete report unchanged. -/
theorem reporte_png_classification_witness :
    (reportePng ([("tEXt", 40)] ++ [("IHDR", 13)])).2 = (reportePng [("tEXt", 40)]).2 :=
  reporte_png_classification.2.1 [("tEXt", 40)] ("IHDR", 13) (by decide)

/-- C3: reconstructing a palette-mode image resolves it to a direct-color
mode before the copy: the result's mode is RGBA exactly when a transparency
marker is present and RGB otherwise, and the result is a fresh object with
no attached metadata side table. -/
theorem reconstruct_palette_resolution (img : PILImage) (h : img.mode = PILMode.P) :
    (reconstruct img).mode =
      (if img.transparency.isSome then PILMode.RGBA else PILMode.RGB) ∧
    (reconstruct img).metadata = [] := by
  unfold reconstruct imageNew PILImage.convert PILImage.copy PILImage.paste
  by_cases ht : img.transparency.isSome <;> simp [h, ht]

/-- C3 witness: the palette image with a transparency marker reconstructs
with the resolved mode and no metadata. -/
theorem reconstruct_palette_resolution_witness :
    (reconstruct palImg).mode =
      (if palImg.transparency.isSome then PILMode.RGBA else PILMode.RGB) ∧
    (reconstruct palImg).metadata = [] :=
  reconstruct_palette_resolution palImg rfl

/-- C4: the tag report surfaces every decoded tag — one line per tag, with
ids missing from the registry labeled `Unknown-<id>` — and its reclaimable
estimate is the serialized byte length of the whole directory, independent
of the tag list; the 12-tag, 312-byte scenario reports 312 bytes and 12
lines. -/
theorem reporte_exif_inventory :
    (∀ (registry : Nat → Option String) (exif : ExifData),
      (reporteExif registry exif).1.length = exif.tags.length ∧
      (∀ t ∈ exif.tags, (tagLabel registry t.1, t.2) ∈ (reporteExif registry exif).1) ∧
      (∀ t ∈ exif.tags, registry t.1 = none →
        ("Unknown-" ++ toString t.1, t.2) ∈ (reporteExif registry exif).1) ∧
      (reporteExif registry exif).2 = exif.serialized.length) ∧
    (∀ (registry : Nat → Option String) (tags1 tags2 : List (Nat × String)) (s : List Nat),
      (reporteExif registry ⟨tags1, s⟩).2 = (reporteExif registry ⟨tags2, s⟩).2) ∧
    (reporteExif (fun _ => none) exifSample).1.length = 12 ∧
    (reporteExif (fun _ => none) exifSample).2 = 312 := by
  refine ⟨?_, fun _ _ _ _ => rfl,
    by rw [show (reporteExif (fun _ => none) exifSample).1.length = exifSample.tags.length
        from List.length_map _ _, exifSample]
       rw [List.length_map, List.length_range],
    by rw [show (reporteExif (fun _ => none) exifSample).2 = exifSample.serialized.length
        from rfl, exifSample]
       rw [List.length_replicate]⟩
  intro registry exif
  refine ⟨by simp [reporteExif], ?_, ?_, rfl⟩
  · intro t ht
    simp only [reporteExif, List.mem_map]
    exact ⟨t, ht, rfl⟩
  · intro t ht hreg
    simp only [reporteExif, List.mem_map]
    exact ⟨t, ht, by simp [tagLabel, hreg]⟩

/-- C4 witness: a tag with an unregistered id surfaces under its
`Unknown-<id>` label in a concrete report. -/
theorem reporte_exif_inventory_witness :
    ("Unknown-" ++ toString (3 : Nat), "v") ∈
      (reporteExif (fun _ => none) { tags := [(3, "v")], serialized := [] }).1 :=
  ((reporte_exif_inventory.1 (fun _ => none)
      { tags := [(3, "v")], serialized := [] }).2.2.1 (3, "v") (by decide) rfl)

/-- C5: a `.jpg`/`.jpeg` target collapses RGBA, LA and P modes to RGB
immediately before encoding and encodes as JPEG at quality 95 with
`optimize` enabled; every other target saves the reconstructed image
unchanged with no format-specific options. -/
theorem save_finalization (img : PILImage) (s : String) :
    ((pyLower s = ".jpg" ∨ pyLower s = ".jpeg") →
      (saveStep s img).format = some "JPEG" ∧
      (saveStep s img).quality = some 95 ∧
      (saveStep s img).optimize = true ∧
      (saveStep s img).img.mode ≠ PILMode.RGBA ∧
      (saveStep s img).img.mode ≠ PILMode.LA ∧
      (saveStep s img).img.mode ≠ PILMode.P ∧
      ((img.mode = PILMode.RGBA ∨ img.mode = PILMode.LA ∨ img.mode = PILMode.P) →
        (saveStep s img).img = img.convert PILMode.RGB) ∧
      ((img.mode ≠ PILMode.RGBA ∧ img.mode ≠ PILMode.LA ∧ img.mode ≠ PILMode.P) →
        (saveStep s img).img = img)) ∧
    (¬(pyLower s = ".jpg" ∨ pyLower s = ".jpeg") →
      saveStep s img = { img := img, format := none, quality := none, optimize := false }) := by
  constructor
  · intro hjpg
    have hstep : saveStep s img =
        { img := if img.mode = PILMode.RGBA ∨ img.mode = PILMode.LA ∨ img.mode = PILMode.P
            then img.convert PILMode.RGB else img,
          format := some "JPEG", quality := some 95, optimize := true } := by
      unfold saveStep
      rw [if_pos hjpg]
    by_cases hm : img.mode = PILMode.RGBA ∨ img.mode = PILMode.LA ∨ img.mode = PILMode.P
    · rw [hstep, if_pos hm]
      refine ⟨rfl, rfl, rfl, by simp [PILImage.convert], by simp [PILImage.convert],
        by simp [PILImage.convert], fun _ => rfl, fun hno => ?_⟩
      rcases hm with h | h | h
      · exact absurd h hno.1
      · exact absurd h hno.2.1
      · exact absurd h hno.2.2
    · rw [hstep, if_neg hm]
      push_neg at hm
      refine ⟨rfl, rfl, rfl, hm.1, hm.2.1, hm.2.2, fun hyes => ?_, fun _ => rfl⟩
      rcases hyes with h | h | h
      · exact absurd h hm.1
      · exact absurd h hm.2.1
      · exact absurd h hm.2.2
  · intro h
    unfold saveStep
    rw [if_neg h]

/-- C5 witness: the RGBA image saved to a `.jpg` target is collapsed to RGB
at quality 95. -/
theorem save_finalization_witness :
    (saveStep ".jpg" rgbaImg).quality = some 95 ∧
    (saveStep ".jpg" rgbaImg).img = rgbaImg.convert PILMode.RGB :=
  ⟨((save_finalization rgbaImg ".jpg").1 (Or.inl (by decide))).2.1,
   ((save_finalization rgbaImg ".jpg").1 (Or.inl (by decide))).2.2.2.2.2.2.1
     (Or.inl rfl)⟩

/-- C6: every error is resolved at the granularity of one input file: a
non-existent path yields exactly one `pathNotFound` outcome, a decode or
encode failure yields exactly one `failed` outcome carrying the underlying
reason, and in both cases the outcomes of every other input are exactly
what they would have been on their own. -/
theorem main_error_isolation (xs ys : List InputItem) (item : InputItem) :
    (item.exists_ = false →
      mainRun (xs ++ item :: ys) = mainRun xs ++ Outcome.pathNotFound :: mainRun ys) ∧
    (∀ e, item.exists_ = true → item.decoded = Except.error e →
      mainRun (xs ++ item :: ys) = mainRun xs ++ Outcome.failed e :: mainRun ys) := by
  constructor
  · intro h
    simp [mainRun, processInput, h]
  · intro e h1 h2
    simp [mainRun, processInput, h1, cleanOne, h2]

/-- C6 witness: a missing path between two failing items yields exactly the
three per-file outcomes. -/
theorem main_error_isolation_witness :
    mainRun ([failingItem] ++ missingItem :: [failingItem]) =
      mainRun [failingItem] ++ Outcome.pathNotFound :: mainRun [failingItem] :=
  (main_error_isolation [failingItem] [failingItem] missingItem).1 rfl

/-- C10: the output path of the clean operation carries the source name
with `_clean` spliced in before the extension, so it always differs from
the source path, and writing the cleaned bytes there leaves the source
file's bytes unchanged. -/
theorem clean_preserves_source (src : PyPath) (outputDir : Option String)
    (fs : FileSystem) (contents : List Nat) :
    outputPath src outputDir ≠ src ∧
    writeFile fs (outputPath src outputDir) contents src = fs src := by
  have hne : outputPath src outputDir ≠ src := by
    intro heq
    have hname : cleanName src.name = src.name := congrArg PyPath.name heq
    have hlen := congrArg List.length hname
    rw [length_cleanName] at hlen
    omega
  refine ⟨hne, ?_⟩
  show (if src = outputPath src outputDir then some contents else fs src) = fs src
  rw [if_neg (fun h => hne h.symm)]

end CleanImages
